import Mathlib

/-!
Verification of the PrintPOS HTML-to-ESC/POS rendering engine (`src/main.py`).

Texts are modelled as `List Char` (Python `str`), Python `int` as `ℕ`/`ℤ`
(all widths in the engine are non-negative), and Python `float` as exact
rationals `ℚ` (the engine only multiplies small decimal literals; every
comparison and truncation exercised here is far from a floating-point
rounding boundary, so the exact-rational semantics coincides with CPython's).
`int(x)` on a non-negative value is `Int.floor` / truncating division.
-/

namespace PrintPos

/-- Whitespace test used for Python `str.split()` / `str.strip()` / `\s`. -/
def isWsChar (c : Char) : Bool :=
  c = ' ' ∨ c = '\t' ∨ c = '\n' ∨ c = '\r' ∨ c = '\x0b' ∨ c = '\x0c'

/-- Python `str.lower()` on one character. -/
def lowerChar (c : Char) : Char := c.toLower

/-- Python `str.lower()`. -/
def lowerStr (s : List Char) : List Char := s.map lowerChar

/-- Does `s` start with the literal `p`?  (Helper for substring search.) -/
def startsWithLit : List Char → List Char → Bool
  | [], _ => true
  | _ :: _, [] => false
  | c :: p, d :: s => d = c && startsWithLit p s

/-- Python `pat in s` substring test. -/
def containsSub (pat : List Char) : List Char → Bool
  | [] => pat.isEmpty
  | c :: t => startsWithLit pat (c :: t) || containsSub pat t

/-- Python `str.strip()`: drop leading and trailing whitespace. -/
def stripWs (s : List Char) : List Char :=
  ((s.dropWhile isWsChar).reverse.dropWhile isWsChar).reverse

/-- `text.replace("\n", " ")` as used on table cell text. -/
def replaceNl (s : List Char) : List Char :=
  s.map fun c => if c = '\n' then ' ' else c

/-- Python `str.split()` helper: accumulate the current word (reversed). -/
def splitWsAux : List Char → List Char → List (List Char)
  | [], cur => if cur.isEmpty then [] else [cur.reverse]
  | c :: t, cur =>
    if isWsChar c then
      if cur.isEmpty then splitWsAux t [] else cur.reverse :: splitWsAux t []
    else splitWsAux t (c :: cur)

/-- Python `str.split()` (split on whitespace runs, no empty words). -/
def splitWs (s : List Char) : List (List Char) := splitWsAux s []

/-- Python `str.ljust(w)` (space fill). -/
def ljust (s : List Char) (w : ℕ) : List Char :=
  s ++ List.replicate (w - s.length) ' '

/-- Python `str.rjust(w)` (space fill). -/
def rjust (s : List Char) (w : ℕ) : List Char :=
  List.replicate (w - s.length) ' ' ++ s

/-- Python `str.center(w)`: CPython puts `marg // 2 + (marg & w & 1)`
fill characters on the left. -/
def pycenter (s : List Char) (w : ℕ) : List Char :=
  let marg := w - s.length
  let left := marg / 2 + (marg &&& w &&& 1)
  List.replicate left ' ' ++ s ++ List.replicate (marg - left) ' '

/-- The final per-row safety net of the table engine
(`main.py` lines 853-857): truncate over-long lines, `ljust` short ones. -/
def fitLine (line : List Char) (w : ℕ) : List Char :=
  if w < line.length then line.take w
  else if line.length < w then ljust line w
  else line

/-- `"\n".join`-style join with a single separator character. -/
def joinSep (sep : Char) : List (List Char) → List Char
  | [] => []
  | [l] => l
  | l :: r :: t => l ++ sep :: joinSep sep (r :: t)

/-- Join wrapped lines with single spaces (for reasoning about re-joining). -/
def joinSp (ls : List (List Char)) : List Char := joinSep ' ' ls

/-!  ## Layout metrics: `get_char_width` (`main.py` lines 164-208)

The Python function mixes `int` and `float`; the result is an `int` only on
the branches that apply `int(...)` or return the base width directly.  We
model the result as an exact rational.  -/

/-- `get_char_width(paper_size, font_size, content_type)` from `main.py`.
`base_widths.get(paper_size, {}).get(font_size, 48)` falls back to `48`. -/
def get_char_width (paper_size font_size content_type : String) : ℚ :=
  let base_width : ℚ :=
    if paper_size = "80mm" then
      (if font_size = "normal" then 48 else if font_size = "small" then 64 else 48)
    else if paper_size = "58mm" then
      (if font_size = "normal" then 32 else if font_size = "small" then 42 else 48)
    else 48
  if content_type = "table" then
    if paper_size = "58mm" then base_width
    else (⌊min base_width (base_width * 1)⌋ : ℤ)
  else if content_type = "header" then
    min (base_width + 4) (base_width * 1.1)
  else if content_type = "narrow" then
    max (base_width - 8) (base_width * 0.8)
  else if content_type = "wide" then
    if paper_size = "58mm" then min base_width (base_width * 0.78)
    else min base_width (base_width * 0.7)
  else
    if paper_size = "58mm" then (⌊base_width⌋ : ℤ)
    else (⌊max base_width (base_width * 1.59)⌋ : ℤ)

/-- The `char_width` / `paragraph_width` value
`get_char_width(paper_size, font_size)` (content type `default`) as a `ℕ`;
the `default` branch always applies `int(...)`, so this is exact. -/
def defaultWidthNat (paper_size font_size : String) : ℕ :=
  (⌊get_char_width paper_size font_size "default"⌋).toNat

/-- The `table_width = get_char_width(paper_size, font_size, 'table')` value
as a `ℕ`; the `table` branch always yields an integer. -/
def tableWidthNat (paper_size font_size : String) : ℕ :=
  (⌊get_char_width paper_size font_size "table"⌋).toNat

/-- `hr_width = int(get_char_width(paper_size, font_size, 'wide'))`. -/
def wideWidthNat (paper_size font_size : String) : ℕ :=
  (⌊get_char_width paper_size font_size "wide"⌋).toNat

/-!  ## Inline-style parsing

The engine parses inline styles with `re.search`.  We model a regex search
as trying a matcher at every start position, left to right (`scanFirst`).
Captured decimal numbers like `30.5` are kept exactly as
`(digits, fracLen)` meaning `digits / 10 ^ fracLen`; this is the exact
value of the decimal literal Python turns into a float. -/

/-- Try matcher `m` at each suffix, left to right (first match wins),
like `re.search`. -/
def scanFirst (m : List Char → Option α) : List Char → Option α
  | [] => m []
  | c :: t =>
    match m (c :: t) with
    | some v => some v
    | none => scanFirst m t

/-- Match a literal prefix, returning the remainder. -/
def dropLit : List Char → List Char → Option (List Char)
  | [], s => some s
  | _ :: _, [] => none
  | c :: p, d :: s => if d = c then dropLit p s else none

/-- `\s*`. -/
def skipWs (s : List Char) : List Char := s.dropWhile isWsChar

/-- Numeric value of a digit run. -/
def digitsVal (ds : List Char) : ℕ :=
  ds.foldl (fun a c => a * 10 + (c.toNat - 48)) 0

/-- Match `key\s*:\s*(\d+)` at the current position, returning the captured
integer and the remainder after the digits. -/
def matchKeyNum (key : List Char) (s : List Char) : Option (ℕ × List Char) :=
  match dropLit key s with
  | none => none
  | some r1 =>
    match skipWs r1 with
    | ':' :: r2 =>
      let r3 := skipWs r2
      let ds := r3.takeWhile Char.isDigit
      if ds.isEmpty then none else some (digitsVal ds, r3.drop ds.length)
    | _ => none

/-- Match `width\s*:\s*(\d+(?:\.\d+)?)%` at the current position
(`re.search(r'width\s*:\s*(\d+(?:\.\d+)?)%', style)`): the optional
fraction group is tried first, then dropped, exactly like regex
backtracking.  Returns the captured decimal as `(digits, fracLen)`. -/
def matchPct (s : List Char) : Option (ℕ × ℕ) :=
  match matchKeyNum "width".data s with
  | none => none
  | some (n, rest) =>
    let withFrac : Option (ℕ × ℕ) :=
      match rest with
      | '.' :: r =>
        let fs := r.takeWhile Char.isDigit
        if fs.isEmpty then none
        else if (r.drop fs.length).head? = some '%' then
          some (n * 10 ^ fs.length + digitsVal fs, fs.length)
        else none
      | _ => none
    match withFrac with
    | some v => some v
    | none => if rest.head? = some '%' then some (n, 0) else none

/-- `re.search(r'width\s*:\s*(\d+)(?:px|ch|em|%)?', style)`: the unit group
is optional and not captured, so this is just the first
`width\s*:\s*(\d+)` occurrence. -/
def matchPxAny (s : List Char) : Option ℕ :=
  (matchKeyNum "width".data s).map (·.1)

/-- First `width\s*:\s*(\d+(?:\.\d+)?)%` match anywhere in the style. -/
def parsePercent (s : List Char) : Option (ℕ × ℕ) := scanFirst matchPct s

/-- First `width\s*:\s*(\d+)(?:px|ch|em|%)?` match anywhere in the style. -/
def parsePxAny (s : List Char) : Option ℕ := scanFirst matchPxAny s

/-- `re.search(r"(key)\s*:\s*(\d+)px", style)` (the `<img>` handler requires
the `px` suffix). -/
def parsePxStrict (key : List Char) (s : List Char) : Option ℕ :=
  scanFirst
    (fun t =>
      match matchKeyNum key t with
      | none => none
      | some (n, rest) => if startsWithLit "px".data rest then some n else none)
    s

/-!  ## Table layout engine (`main.py` lines 601-880) -/

/-- Resolved cell alignment. -/
inductive Align where
  | left
  | center
  | right
deriving DecidableEq

/-- The character class of `re.search(r'[\d$€£¥₹.,]+', text)`. -/
def numericChar (c : Char) : Bool :=
  c.isDigit ∨ c ∈ ['$', '€', '£', '¥', '₹', '.', ',']

/-- A table cell as the engine sees it: the flattened text
`cell.get_text(strip=True).replace("\n", " ")` and the raw `style`
attribute (absent when the cell has none). -/
structure Cell where
  text : List Char
  styleAttr : Option (List Char)
deriving DecidableEq

/-- The `style_info` dict built per cell in the multi-column branch
(`main.py` lines 733-776).  `width_percent` stores the captured decimal as
`(digits, fracLen)` (value `digits / 10 ^ fracLen`). -/
structure StyleInfo where
  width_percent : Option (ℕ × ℕ)
  width_fixed : Option ℕ
  align : Align
  content_length : ℕ
  is_numeric : Bool
deriving DecidableEq

/-- Python truthiness of `style_info['width_percent']` (a float: `0.0` is
falsy, `None` is falsy). -/
def pctTruthy : Option (ℕ × ℕ) → Bool
  | none => false
  | some (a, _) => a ≠ 0

/-- Python truthiness of `style_info['width_fixed']` (an int). -/
def fixTruthy : Option ℕ → Bool
  | none => false
  | some v => v ≠ 0

/-- Alignment captured from a (lowercased) style string by the
`text-align` substring checks. -/
def alignOfStyle (st : List Char) : Align :=
  if containsSub "text-align:right".data st then .right
  else if containsSub "text-align:center".data st then .center
  else if containsSub "text-align:left".data st then .left
  else .left

/-- Build the `style_info` dict for one cell in the multi-column branch:
alignment, percent width, then the second width regex whose unit is decided
by `'ch' in style` / `'em' in style` / `'%' in style` substring tests on the
whole style string.  `em` converts by `max(1, int(value * 1.4))` and `px` by
`max(1, value // 8)`; the exact-rational value of `1.4` is `7/5`. -/
def mkStyle (c : Cell) : StyleInfo :=
  let base : StyleInfo :=
    { width_percent := none
      width_fixed := none
      align := .left
      content_length := c.text.length
      is_numeric := c.text.any numericChar }
  match c.styleAttr with
  | none => base
  | some raw =>
    let st := lowerStr raw
    let al := alignOfStyle st
    let wp0 := parsePercent st
    match parsePxAny st with
    | none => { base with align := al, width_percent := wp0 }
    | some v =>
      if containsSub "ch".data st then
        { base with align := al, width_percent := wp0, width_fixed := some v }
      else if containsSub "em".data st then
        { base with align := al, width_percent := wp0,
                    width_fixed := some (max 1 (v * 7 / 5)) }
      else if containsSub "%".data st then
        { base with align := al, width_percent := some (v, 0) }
      else
        { base with align := al, width_percent := wp0,
                    width_fixed := some (max 1 (v / 8)) }

/-- `max(1, int(table_width * pct / 100))` for a percent `(a, k)` with value
`a / 10 ^ k`. -/
def pctWidth (table_width : ℕ) (p : ℕ × ℕ) : ℕ :=
  max 1 (table_width * p.1 / (100 * 10 ^ p.2))

/-- First pass of column-width resolution (`main.py` lines 791-799):
percent columns, then fixed columns, else `0` as a placeholder. -/
def initWidths (table_width : ℕ) (styles : List StyleInfo) : List ℕ :=
  styles.map fun st =>
    if pctTruthy st.width_percent then
      pctWidth table_width (st.width_percent.getD (0, 0))
    else if fixTruthy st.width_fixed then st.width_fixed.getD 0
    else 0

/-- Indices collected into `flexible_columns` (`main.py` lines 772-776): no
truthy fixed width and no truthy percent width. -/
def flexibleIdx (styles : List StyleInfo) : List ℕ :=
  (List.range styles.length).filter fun i =>
    match styles.get? i with
    | some st => !fixTruthy st.width_fixed && !pctTruthy st.width_percent
    | none => false

/-- `content_length` of column `i`. -/
def contentLenAt (styles : List StyleInfo) (i : ℕ) : ℕ :=
  match styles.get? i with
  | some st => st.content_length
  | none => 0

/-- Map over a list with the element's index. -/
def mapWithIdx (f : ℕ → α → α) : ℕ → List α → List α
  | _, [] => []
  | k, x :: xs => f k x :: mapWithIdx f (k + 1) xs

/-- Distribute the remaining width over flexible columns
(`main.py` lines 801-818): proportionally to content length
(`max(1, int(remaining * content_ratio))`, i.e. `remaining * len // total`),
or evenly with the remainder on the earliest flexible columns when all
flexible cells are empty.  Skipped when there is no flexible column or no
positive remaining width. -/
def distributeFlex (table_width : ℕ) (styles : List StyleInfo)
    (ws : List ℕ) : List ℕ :=
  let flex := flexibleIdx styles
  let remaining : ℤ := (table_width : ℤ) - (ws.sum : ℤ)
  if flex.isEmpty || remaining ≤ 0 then ws
  else
    let R := remaining.toNat
    let total := (flex.map (contentLenAt styles)).sum
    if 0 < total then
      mapWithIdx
        (fun i w =>
          if i ∈ flex then max 1 (R * contentLenAt styles i / total) else w)
        0 ws
    else
      let flexW := max 1 (R / flex.length)
      let extra := R % flex.length
      mapWithIdx
        (fun i w =>
          if i ∈ flex then flexW + (if flex.indexOf i < extra then 1 else 0)
          else w)
        0 ws

/-- `max(1, int(w * factor))` with `factor = table_width / total`: exact
truncating arithmetic for the non-negative operands the engine produces. -/
def scaleW (table_width total w : ℕ) : ℕ :=
  max 1 (w * table_width / total)

/-- The rounding-error correction loop (`main.py` lines 826-829):
`for i in range(min(abs(diff), len(col_widths))): col_widths[i] += ±1`. -/
def correctDiff : ℤ → List ℕ → List ℕ
  | _, [] => []
  | d, w :: ws =>
    if 0 < d then (w + 1) :: correctDiff (d - 1) ws
    else if d < 0 then (w - 1) :: correctDiff (d + 1) ws
    else w :: ws

/-- `main.py` lines 820-829: if the widths exceed the table width, scale
every one down by `table_width / total` and fix the residual off-by-`diff`
on the earliest columns. -/
def scaleCorrect (table_width : ℕ) (ws : List ℕ) : List ℕ :=
  let total := ws.sum
  if table_width < total then
    let scaled := ws.map (scaleW table_width total)
    correctDiff ((table_width : ℤ) - (scaled.sum : ℤ)) scaled
  else ws

/-- Full multi-column width resolution: first pass, flexible distribution,
then the overflow scale-and-correct pass. -/
def resolveColWidths (table_width : ℕ) (styles : List StyleInfo) : List ℕ :=
  scaleCorrect table_width (distributeFlex table_width styles
    (initWidths table_width styles))

/-- Truncate a cell's text to its column width and align it
(`main.py` lines 832-845). -/
def formatCell (text : List Char) (w : ℕ) (st : StyleInfo) : List Char :=
  let t := text.take w
  match st.align with
  | .right => rjust t w
  | .center => pycenter t w
  | .left => ljust t w

/-- Format all columns (`zip(cols, col_widths, cell_styles)`, truncating to
the shortest list like Python `zip`). -/
def formatCols : List (List Char) → List ℕ → List StyleInfo → List (List Char)
  | t :: ts, w :: ws, st :: sts => formatCell t w st :: formatCols ts ws sts
  | _, _, _ => []

/-- The multi-column row line before the safety net: concatenation of the
formatted cells. -/
def multiColLine (cells : List Cell) (table_width : ℕ) : List Char :=
  let styles := cells.map mkStyle
  (formatCols (cells.map Cell.text) (resolveColWidths table_width styles)
    styles).flatten

/-- Single-column alignment (`main.py` lines 685-711): explicit
`text-align` wins in the order right/center/left, then any cell whose
`cell_align` is still `left` and whose text contains a numeric/currency
character is switched to `right`. -/
def singleAlign (c : Cell) : Align :=
  let a :=
    match c.styleAttr with
    | some raw => alignOfStyle (lowerStr raw)
    | none => Align.left
  if a = .left && c.text.any numericChar then .right else a

/-- The single-column row line before the safety net
(`main.py` lines 713-720). -/
def singleColLine (c : Cell) (table_width : ℕ) : List Char :=
  let t := c.text.take table_width
  match singleAlign c with
  | .right => rjust t table_width
  | .center => pycenter t table_width
  | .left => ljust t table_width

/-- The final text line for a (non-rule) table row: single- or multi-column
formatting followed by the exact-width safety net of lines 853-857.
Empty rows are skipped by the engine (`if not cells: continue`). -/
def rowLine (cells : List Cell) (table_width : ℕ) : List Char :=
  match cells with
  | [c] => fitLine (singleColLine c table_width) table_width
  | _ => fitLine (multiColLine cells table_width) table_width

/-!  ## Horizontal-rule fill character (`main.py` lines 882-899 and the
in-table copy at lines 646-659) -/

/-- Choose the `<hr>` fill character from the lowercased style string and
the class token list. -/
def hrChar (styleAttr : Option (List Char)) (classes : List (List Char)) :
    Char :=
  let line_style := match styleAttr with
    | some s => lowerStr s
    | none => []
  if containsSub "border-style:double".data line_style
      || classes.contains "double".data then '='
  else if containsSub "border-style:dotted".data line_style
      || classes.contains "dotted".data then '-'
  else if containsSub "border-style:dashed".data line_style
      || classes.contains "dashed".data then '-'
  else if classes.contains "solid".data || classes.contains "thick".data
    then '#'
  else '-'

/-!  ## Paragraph word-wrap (`main.py` lines 340-364)

`current_line` is the accumulator; a word that does not fit on a non-empty
line flushes the line and becomes the new `current_line` whole, and a word
that does not fit on an empty line is cut once at the width boundary, its
remainder becoming the new `current_line` without being re-split. -/

/-- The greedy wrap loop.  `cur` is `current_line`. -/
def wrapWords (width : ℕ) : List (List Char) → List Char → List (List Char)
  | [], cur => if cur.isEmpty then [] else [cur]
  | w :: ws, cur =>
    let test := if cur.isEmpty then w else cur ++ ' ' :: w
    if test.length ≤ width then wrapWords width ws test
    else if !cur.isEmpty then cur :: wrapWords width ws w
    else
      (w.take width) ::
        wrapWords width ws (if width < w.length then w.drop width else [])

/-- The lines a `<p>` element's text is printed as: the wrap runs only when
the text is longer than `paragraph_width =
get_char_width(paper_size, font_size, 'default')`. -/
def paragraphLines (paper_size font_size : String) (text : List Char) :
    List (List Char) :=
  let width := defaultWidthNat paper_size font_size
  if width < text.length then wrapWords width (splitWs text) []
  else [text]

/-- Which word sequences can arise from the input by hard-splitting some of
the over-long words once at the width boundary (the adjustment the claim
grants for re-joining wrapped lines). -/
inductive SplitSeq (width : ℕ) :
    List (List Char) → List (List Char) → Prop where
  | nil : SplitSeq width [] []
  | keep (w : List Char) {ws vs : List (List Char)} :
      SplitSeq width ws vs → SplitSeq width (w :: ws) (w :: vs)
  | split (w : List Char) {ws vs : List (List Char)} :
      width < w.length → SplitSeq width ws vs →
      SplitSeq width (w :: ws) (w.take width :: w.drop width :: vs)

/-!  ## Image sizing (`main.py` lines 536-585) -/

/-- `max_width_px = 576 if paper_size == "80mm" else 384`. -/
def maxPx (paper_size : String) : ℤ := if paper_size = "80mm" then 576 else 384

/-- Python truthiness of an optional int (`None` and `0` are falsy). -/
def truthyZ : Option ℤ → Bool
  | none => false
  | some v => v ≠ 0

/-- Resolve the target bitmap dimensions of a base64 `<img>`:
`width`/`height` HTML attributes, overridden by `width:Npx` / `height:Npx`
style matches; truthy explicit dimensions are used as-is (absent ones keep
the original), otherwise auto-scale down to the paper's pixel width; then a
final clamp to the paper's pixel width recomputing the height. -/
def imgTarget (paper_size : String) (widthAttr heightAttr : Option ℤ)
    (styleAttr : Option (List Char)) (orig_w orig_h : ℤ) : ℤ × ℤ :=
  let mw := maxPx paper_size
  let width : Option ℤ :=
    match styleAttr.bind (fun st => parsePxStrict "width".data st) with
    | some v => some (v : ℤ)
    | none => widthAttr
  let height : Option ℤ :=
    match styleAttr.bind (fun st => parsePxStrict "height".data st) with
    | some v => some (v : ℤ)
    | none => heightAttr
  let nwh :=
    if truthyZ width || truthyZ height then
      (if truthyZ width then width.getD 0 else orig_w,
       if truthyZ height then height.getD 0 else orig_h)
    else if mw < orig_w then (mw, mw * orig_h / orig_w)
    else (orig_w, orig_h)
  if mw < nwh.1 then (mw, mw * nwh.2 / nwh.1) else nwh

/-!  ## Parsed HTML nodes and the printer sink

`Node` is the BeautifulSoup tree as the engine consumes it.  `Attrs` keeps
exactly the attributes the engine reads; `widthAttr`/`heightAttr` are the
already-`int()`-parsed values (`none` when absent or unparsable, matching
the `try: int(...) except: pass` pattern), and `imgData` stands for the
result of `base64.b64decode` + `Image.open` on the `src` payload: `none`
when those raise, otherwise the bitmap's `(width, height)`. -/

structure Attrs where
  style : Option (List Char) := none
  classes : List (List Char) := []
  src : List Char := []
  dataType : Option (List Char) := none
  dataValue : List Char := []
  widthAttr : Option ℤ := none
  heightAttr : Option ℤ := none
  typeAttr : Option (List Char) := none
  imgData : Option (ℤ × ℤ) := none

inductive Node where
  | text : List Char → Node
  | elem : String → Attrs → List Node → Node

mutual
/-- All descendants of a node in document order (`BeautifulSoup.descendants`
minus the node itself), element and text nodes alike. -/
def Node.descendants : Node → List Node
  | .text _ => []
  | .elem _ _ cs => descendantsList cs

/-- Descendants of each node in a list, in order. -/
def descendantsList : List Node → List Node
  | [] => []
  | c :: cs => c :: c.descendants ++ descendantsList cs
end

/-- Tag name of an element node (`""` for text nodes, which never match a
tag test). -/
def Node.nameOf : Node → String
  | .text _ => ""
  | .elem n _ _ => n

/-- Attributes of an element node. -/
def Node.attrsOf : Node → Attrs
  | .text _ => {}
  | .elem _ a _ => a

/-- Children of a node. -/
def Node.childrenOf : Node → List Node
  | .text _ => []
  | .elem _ _ cs => cs

/-- Is the node an element (has a tag name)? -/
def Node.isElem : Node → Bool
  | .text _ => false
  | .elem _ _ _ => true

/-- `get_text(strip=True)`: concatenate the stripped text descendants. -/
def getText (n : Node) : List Char :=
  ((n :: n.descendants).filterMap fun c =>
    match c with
    | .text s => some (stripWs s)
    | .elem _ _ _ => none).flatten

/-- `element.find_all(name)`: matching element descendants in order. -/
def findAllTag (tag : String) (n : Node) : List Node :=
  n.descendants.filter fun c => c.nameOf = tag

/-- `tr.find_all(["td", "th"])`. -/
def findCells (tr : Node) : List Node :=
  tr.descendants.filter fun c => c.nameOf = "td" || c.nameOf = "th"

/-- `cell.find("hr")`: the first `<hr>` descendant, if any. -/
def findHr (n : Node) : Option Node :=
  (findAllTag "hr" n).head?

/-- One call into the escpos printer object. -/
structure SetArgs where
  align : Option String := none
  bold : Option Bool := none
  italic : Option Bool := none
  underline : Option ℕ := none
  font : Option ℕ := none
  customSize : Bool := false
  cwidth : Option ℕ := none
  cheight : Option ℕ := none
deriving DecidableEq

inductive Op where
  | set (a : SetArgs)
  | raw (bs : List ℕ)
  | text (s : List Char)
  | blockText (s : List Char)
  | ln (n : ℤ)
  | image (w h : ℤ)
  | qr (data : List Char) (size : ℕ)
  | barcode (code btype : List Char) (width height : ℕ)
deriving DecidableEq

/-- A run of the engine against a sink: `fail o = true` means the sink call
for `o` raises.  The accumulated op list plays the role of everything the
printer received so far; an `Except.error acc` is an uncaught Python
exception carrying the output emitted before it. -/
abbrev PRun := List Op → Except (List Op) (List Op)

/-- Emit one op, raising when the sink rejects it. -/
def emitOp (fail : Op → Bool) (o : Op) : PRun := fun acc =>
  if fail o then .error acc else .ok (acc ++ [o])

/-- Emit a sequence of ops, stopping at the first failure. -/
def emitOps (fail : Op → Bool) : List Op → PRun
  | [], acc => .ok acc
  | o :: os, acc =>
    match emitOp fail o acc with
    | .error a => .error a
    | .ok a => emitOps fail os a

/-- Sequencing of runs (`;`). -/
def andThen (f g : PRun) : PRun := fun acc =>
  match f acc with
  | .error a => .error a
  | .ok a => g a

/-- A Python `try: body except: handler` block. -/
def tryCatch (body handler : PRun) : PRun := fun acc =>
  match body acc with
  | .ok a => .ok a
  | .error a => handler a

/-- The no-op run. -/
def skip : PRun := fun acc => .ok acc

/-- `set_line_spacing(p, spacing)` (`main.py` lines 211-231): emits
`ESC 3 n` with `n = 10/60/50`, swallowing any sink failure itself. -/
def setLineSpacing (fail : Op → Bool) (spacing : String) : PRun :=
  let n : ℕ := if spacing = "compact" then 10 else if spacing = "wide" then 60 else 50
  tryCatch (emitOp fail (.raw [0x1B, 0x33, n])) skip

/-- Render configuration for one `process_html_for_escpos` call. -/
structure Config where
  paper_size : String
  font_size : String
  line_spacing : String
  test_width : Bool := false

/-- `print_char_width_test(p, paper_size)` (`main.py` lines 233-244); its
body is wrapped in its own `try/except` that swallows failures. -/
def widthTestRun (fail : Op → Bool) (cfg : Config) : PRun :=
  let ruler := (List.range 65).map fun i => Char.ofNat (48 + ((i + 1) % 10))
  tryCatch
    (emitOps fail
      [.text ("Prueba de ancho para papel ".data ++ cfg.paper_size.data
          ++ ":\n".data),
       .text (ruler ++ ['\n']),
       .text "Marcar donde se corta la línea\n".data,
       .text (List.replicate (defaultWidthNat cfg.paper_size "normal") '='
          ++ ['\n']),
       .ln 2])
    skip

/-- Heading size codes: h1 → 8 … h6 → 3, else 1. -/
def headingSize (name : String) : ℕ :=
  if name = "h1" then 8
  else if name = "h2" then 7
  else if name = "h3" then 6
  else if name = "h4" then 5
  else if name = "h5" then 4
  else if name = "h6" then 3
  else 1

/-- Is the tag one of `h1`..`h6`? -/
def isHeading (name : String) : Bool :=
  name = "h1" || name = "h2" || name = "h3" || name = "h4" || name = "h5"
    || name = "h6"

/-- The direct-heading handler: try native centering plus the raw `ESC !`
size code, falling back to manual padding with `char_width` on failure. -/
def headingRun (fail : Op → Bool) (char_width ws : ℕ) (boldTry : Bool)
    (t : List Char) : PRun :=
  tryCatch
    (emitOps fail
      ((if boldTry then Op.set { align := some "center", bold := some true }
        else Op.set { align := some "center", bold := some false,
                      underline := some 0 }) ::
       (if 1 < ws then [Op.raw [0x1B, 0x21, ws]] else []) ++
       [Op.text t, Op.text ['\n'], Op.raw [0x1B, 0x21, 0],
        Op.set { align := some "left", bold := some false }]))
    (emitOps fail
      (Op.set { bold := some true } ::
       (if 1 < ws then [Op.raw [0x1B, 0x21, ws]] else []) ++
       [Op.text (List.replicate (max 0 ((char_width - t.length) / 2)) ' '
          ++ t ++ ['\n']),
        Op.raw [0x1B, 0x21, 0], Op.set { bold := some false }]))

/-- The plain centered-text handler (non-heading children of `<center>` and
elements with `text-align:center`): try native centering, fall back to
manual padding. -/
def centerTextRun (fail : Op → Bool) (char_width : ℕ) (t : List Char) :
    PRun :=
  tryCatch
    (emitOps fail
      [.set { align := some "center" }, .text t, .text ['\n'],
       .set { align := some "left" }])
    (emitOps fail
      [.text (List.replicate (max 0 ((char_width - t.length) / 2)) ' '
          ++ t ++ ['\n'])])

/-- `element.name.lower()`: tag names are ASCII, so per-character
lowering matches Python. -/
def lowerName (s : String) : String := ⟨lowerStr s.data⟩

/-- Processing of one `<center>` child (`main.py` lines 370-444): headings
get the sized bold/centered treatment, other elements and bare text are
centered when non-empty.  No recursion into `process_element` happens
here. -/
def centerChildRun (fail : Op → Bool) (char_width : ℕ) (c : Node) : PRun :=
  match c with
  | .elem cname _ _ =>
    let nm := lowerName cname
    if isHeading nm then
      headingRun fail char_width (headingSize nm) true (getText c)
    else
      let t := getText c
      if t.isEmpty then skip else centerTextRun fail char_width t
  | .text s =>
    let t := stripWs s
    if t.isEmpty then skip else centerTextRun fail char_width t

/-- Sequence a list of runs. -/
def seqAll : List PRun → PRun
  | [] => skip
  | r :: rs => andThen r (seqAll rs)

/-- The `Cell` view of a `<td>`/`<th>` node:
`cell.get_text(strip=True).replace("\n", " ")` plus the style attribute. -/
def cellOf (c : Node) : Cell :=
  ⟨replaceNl (getText c), c.attrsOf.style⟩

/-- Processing of one `<tr>` (`main.py` lines 613-873): rule rows print a
full-width separator inside a `try/except`; data rows print the formatted
`rowLine` with NO surrounding `try/except`. -/
def tableRowRun (fail : Op → Bool) (cfg : Config) (table_width : ℕ)
    (tr : Node) : PRun :=
  let cells := findCells tr
  if cells.isEmpty then skip
  else
    let has_headers := cells.any fun c => c.nameOf = "th"
    let has_hr := cells.any fun c => (findHr c).isSome
    if has_hr then
      let hr_width := wideWidthNat cfg.paper_size cfg.font_size
      let line_char :=
        match (cells.filterMap findHr).head? with
        | some h => hrChar h.attrsOf.style h.attrsOf.classes
        | none => '-'
      let hl := List.replicate hr_width line_char
      tryCatch
        (andThen
          (emitOps fail
            (Op.set { align := some "center", font := some 0 } ::
             if cfg.paper_size = "58mm" then
               [.ln (-2), .raw [0x1B, 0x33, 5], .text hl, .ln 1]
             else
               [.ln (-2), .raw [0x1B, 0x33, 5], .blockText hl, .ln 1]))
          (andThen (setLineSpacing fail cfg.line_spacing)
            (emitOp fail (.set { align := some "left", font := some 0 }))))
        (emitOps fail
          [.set { align := some "center", font := some 0, customSize := true,
                  cwidth := some 1, cheight := some 1 },
           .text hl, .ln 1])
    else
      let line := rowLine (cells.map cellOf) table_width
      andThen
        (emitOp fail
          (.set (if has_headers then { bold := some true, align := some "center" }
                 else { bold := some false })))
        (emitOps fail
          (if cfg.paper_size = "58mm" then
            [.raw [0x1B, 0x21, 5], .blockText line, .raw [0x1B, 0x21, 0],
             .set { bold := some false }, .ln 1]
          else
            [.raw [0x1B, 0x21, 5], .text line, .raw [0x1B, 0x21, 0],
             .set { bold := some false }, .ln 1]))

/-- The `<img>` handler (`main.py` lines 519-599): only the
decode/open step and the final sink emission are fault-isolated; the QR
variant is not. -/
def imgRun (fail : Op → Bool) (cfg : Config) (attrs : Attrs) : PRun :=
  if containsSub "base64".data attrs.src then
    match attrs.imgData with
    | none => skip
    | some (ow, oh) =>
      let t := imgTarget cfg.paper_size attrs.widthAttr attrs.heightAttr
        attrs.style ow oh
      tryCatch (emitOps fail [.image t.1 t.2, .text ['\n']]) skip
  else if attrs.dataType = some "qr".data then
    if attrs.dataValue.isEmpty then skip
    else
      emitOps fail
        [.qr attrs.dataValue (if cfg.paper_size = "80mm" then 15 else 12),
         .text ['\n']]
  else skip

/-- The stand-alone `<hr>` handler (`main.py` lines 876-911). -/
def hrRun (fail : Op → Bool) (cfg : Config) (attrs : Attrs) : PRun :=
  let hr_width := wideWidthNat cfg.paper_size cfg.font_size
  let hl := List.replicate hr_width (hrChar attrs.style attrs.classes)
  tryCatch
    (andThen
      (emitOps fail
        [.set { align := some "center", font := some 0 }, .ln (-2),
         .raw [0x1B, 0x33, 5], .text hl, .ln 1])
      (setLineSpacing fail cfg.line_spacing))
    (emitOps fail
      [.set { align := some "center", font := some 0, customSize := true,
              cwidth := some 1, cheight := some 1 },
       .text (hl ++ ['\n'])])

/-- Python truthiness of `element.get('style')` together with the literal
(non-lowercased!) `'text-align:center' in style` test used by the
dispatcher. -/
def styleCentered (attrs : Attrs) : Bool :=
  match attrs.style with
  | some s => !s.isEmpty && containsSub "text-align:center".data s
  | none => false

mutual
/-- `process_element` (`main.py` lines 270-925): the recursive dispatcher.
Branch order matches the Python `if/elif` chain exactly; only the container
and fall-through branches recurse. -/
def processElement (fail : Op → Bool) (cfg : Config) (n : Node) : PRun :=
  match n with
  | .text _ => skip
  | .elem name attrs children =>
    let nm := lowerName name
    let char_width := defaultWidthNat cfg.paper_size cfg.font_size
    if isHeading nm then
      headingRun fail char_width (headingSize nm) false
        (getText (.elem name attrs children))
    else if nm = "p" then
      andThen
        (emitOps fail
          [.set { align := some "left", bold := some false,
                  underline := some 0 },
           .raw [0x1B, 0x21, 1]])
        (emitOp fail
          (.text (joinSep '\n'
            (paragraphLines cfg.paper_size cfg.font_size
              (getText (.elem name attrs children))) ++ ['\n'])))
    else if nm = "center" then
      seqAll (children.map (centerChildRun fail char_width))
    else if styleCentered attrs then
      let t := getText (.elem name attrs children)
      if t.isEmpty then skip
      else if isHeading nm then headingRun fail char_width (headingSize nm) true t
      else centerTextRun fail char_width t
    else if nm = "b" then
      let t := getText (.elem name attrs children)
      if t.isEmpty then skip
      else
        emitOps fail
          [.set { bold := some true }, .text (t ++ ['\n']),
           .set { bold := some false }]
    else if nm = "i" then
      let t := getText (.elem name attrs children)
      if t.isEmpty then skip
      else
        emitOps fail
          [.set { italic := some true }, .text (t ++ ['\n']),
           .set { italic := some false }]
    else if nm = "u" then
      let t := getText (.elem name attrs children)
      if t.isEmpty then skip
      else
        emitOps fail
          [.set { underline := some 1 }, .text (t ++ ['\n']),
           .set { underline := some 0 }]
    else if nm = "img" then
      imgRun fail cfg attrs
    else if nm = "barcode" then
      emitOps fail
        [.barcode (getText (.elem name attrs children))
          ((attrs.typeAttr).getD "CODE128".data)
          (if cfg.paper_size = "80mm" then 2 else 1) 80,
         .text ['\n']]
    else if nm = "table" then
      seqAll ((findAllTag "tr" (.elem name attrs children)).map
        (tableRowRun fail cfg (tableWidthNat cfg.paper_size cfg.font_size)))
    else if nm = "hr" then
      hrRun fail cfg attrs
    else if nm = "qr" then
      emitOps fail
        [.qr (getText (.elem name attrs children))
          (if cfg.paper_size = "80mm" then 8 else 12),
         .text ['\n']]
    else
      -- containers (`div`/`section`/…) and unrecognized tags both just
      -- recurse into element children
      processChildren fail cfg children
termination_by structural n

/-- `for child in element.children: if child.name: process_element(child)`,
with an uncaught exception aborting the whole loop. -/
def processChildren (fail : Op → Bool) (cfg : Config) : List Node → PRun
  | [] => skip
  | c :: cs =>
    andThen (processElement fail cfg c) (processChildren fail cfg cs)
termination_by structural ns => ns
end

/-- `process_html_for_escpos` (`main.py` lines 246-931): configure line
spacing, optionally run the width test, then process the body's element
children in order with no surrounding `try/except`. -/
def processHtml (fail : Op → Bool) (cfg : Config) (body : List Node) :
    Except (List Op) (List Op) :=
  (andThen (setLineSpacing fail cfg.line_spacing)
    (andThen (if cfg.test_width then widthTestRun fail cfg else skip)
      (processChildren fail cfg body))) []

/-!  ## Helper evaluation lemmas -/

theorem tableWidth_80_normal : tableWidthNat "80mm" "normal" = 48 := by
  norm_num [tableWidthNat, get_char_width]
  rfl

theorem defaultWidth_58_normal : defaultWidthNat "58mm" "normal" = 32 := by
  norm_num [defaultWidthNat, get_char_width, Int.toNat_ofNat,
    (by decide : ("default" : String) ≠ "table"),
    (by decide : ("default" : String) ≠ "header"),
    (by decide : ("default" : String) ≠ "narrow"),
    (by decide : ("default" : String) ≠ "wide"),
    (by decide : ("58mm" : String) ≠ "80mm")]
  rfl

theorem fitLine_length (l : List Char) (w : ℕ) : (fitLine l w).length = w := by
  unfold fitLine ljust
  split_ifs with h1 h2
  · simp
    omega
  · simp
    omega
  · omega

/-!  ## Claim theorems -/

/-- C1: every (non-rule) table row line — single- or multi-column, header
or data row (the header flag only toggles bold/centered `set` calls, never
the line text) — has length exactly
`get_char_width(paper_size, font_size, 'table')`, thanks to the final
truncate-or-pad safety net. -/
theorem C1_row_line_exact_width (paper_size font_size : String)
    (cells : List Cell) :
    (rowLine cells (tableWidthNat paper_size font_size)).length
      = tableWidthNat paper_size font_size := by
  cases cells with
  | nil => simp [rowLine, fitLine_length]
  | cons c cs =>
    cases cs with
    | nil => simp [rowLine, fitLine_length]
    | cons d ds => simp [rowLine, fitLine_length]

/-- C2 (code bug): a single-column cell with the explicit style
`text-align:left` and the numeric text `$10.00` is nevertheless rendered
right-aligned on the 48-character table width, because the numeric-content
inference fires whenever `cell_align == 'left'`, which cannot be told apart
from an explicit `text-align:left`; the code's own comment says the
inference is only for cells with no specific style. -/
theorem C2_explicit_left_not_honored :
    tableWidthNat "80mm" "normal" = 48 ∧
    rowLine [⟨"$10.00".data, some "text-align:left".data⟩] 48
      = List.replicate 42 ' ' ++ "$10.00".data :=
  ⟨tableWidth_80_normal, by decide⟩

/-- The two cells of the C3 end-to-end scenario
`<table><tr><td>Product A</td><td style="text-align:right;">$10.00</td></tr></table>`. -/
def c3cells : List Cell :=
  [⟨"Product A".data, none⟩, ⟨"$10.00".data, some "text-align:right;".data⟩]

/-- C3 counterexample: in the emitted 48-character line, `$10.00` does NOT
end at column 48 — the last 6 characters are `10.00 ` (the flexible split
gives widths 28 and 19, summing to 47, and the safety net pads a trailing
space). -/
theorem C3_counterexample :
    (rowLine c3cells (tableWidthNat "80mm" "normal")).drop 42
      ≠ "$10.00".data := by
  rw [tableWidth_80_normal]
  decide

/-- C3 amended: the scenario yields exactly one 48-character line with
`Product A` left-flush at column 1 and `$10.00` ending at column 47
followed by one padding space: the proportional split of 48 by content
lengths 9 and 6 gives `int(48*9/15) = 28` and `int(48*6/15) = 19`,
summing to 47, and the final safety net pads the 48th column. -/
theorem C3_amended_line :
    rowLine c3cells (tableWidthNat "80mm" "normal")
      = "Product A".data ++ List.replicate 32 ' ' ++ "$10.00".data ++ [' ']
      := by
  rw [tableWidth_80_normal]
  decide

/-- C5 counterexample: `get_char_width('80mm', 'normal', 'wide')` is
`min(48, 48*0.7) = 33.6`, not an integer (the `wide`, and the 58mm-normal
`header`/`narrow`, branches return the float operand of `min`/`max`
unconverted). -/
theorem C5_counterexample :
    ¬ ∃ n : ℤ, get_char_width "80mm" "normal" "wide" = (n : ℚ) := by
  have h : get_char_width "80mm" "normal" "wide" = 168 / 5 := by
    norm_num [get_char_width,
      (by decide : ("wide" : String) ≠ "table"),
      (by decide : ("wide" : String) ≠ "header"),
      (by decide : ("wide" : String) ≠ "narrow"),
      (by decide : ("80mm" : String) ≠ "58mm")]
  rintro ⟨n, hn⟩
  rw [h] at hn
  have h2 : (168 : ℚ) = (n : ℚ) * 5 := by
    field_simp at hn
    linarith
  have h3 : (168 : ℤ) = n * 5 := by exact_mod_cast h2
  omega

/-- C5 amended: `get_char_width` is total and always positive, and on the
documented grid it takes exactly these values — integers everywhere except
the `wide` category (all four paper/font pairs) and the `header`/`narrow`
categories on 58mm-normal; in particular `('80mm','normal','table') = 48`
and `('58mm','small','narrow') = 34` hold, and an unknown paper/font pair
falls back to base width 48 (e.g. `('A4','huge','table') = 48`). -/
theorem C5_amended_value_table :
    (∀ paper_size font_size content_type : String,
      0 < get_char_width paper_size font_size content_type) ∧
    get_char_width "80mm" "normal" "table" = 48 ∧
    get_char_width "80mm" "small" "table" = 64 ∧
    get_char_width "58mm" "normal" "table" = 32 ∧
    get_char_width "58mm" "small" "table" = 42 ∧
    get_char_width "80mm" "normal" "header" = 52 ∧
    get_char_width "80mm" "small" "header" = 68 ∧
    get_char_width "58mm" "normal" "header" = 176 / 5 ∧
    get_char_width "58mm" "small" "header" = 46 ∧
    get_char_width "80mm" "normal" "narrow" = 40 ∧
    get_char_width "80mm" "small" "narrow" = 56 ∧
    get_char_width "58mm" "normal" "narrow" = 128 / 5 ∧
    get_char_width "58mm" "small" "narrow" = 34 ∧
    get_char_width "80mm" "normal" "wide" = 168 / 5 ∧
    get_char_width "80mm" "small" "wide" = 224 / 5 ∧
    get_char_width "58mm" "normal" "wide" = 624 / 25 ∧
    get_char_width "58mm" "small" "wide" = 819 / 25 ∧
    get_char_width "80mm" "normal" "default" = 76 ∧
    get_char_width "80mm" "small" "default" = 101 ∧
    get_char_width "58mm" "normal" "default" = 32 ∧
    get_char_width "58mm" "small" "default" = 42 ∧
    get_char_width "A4" "huge" "table" = 48 := by
  refine ⟨fun p f c => ?_, ?_, ?_, ?_, ?_, ?_, ?_, ?_, ?_, ?_, ?_, ?_, ?_,
    ?_, ?_, ?_, ?_, ?_, ?_, ?_, ?_, ?_⟩
  · unfold get_char_width
    split_ifs <;> norm_num
  all_goals
    norm_num [get_char_width,
      (by decide : ("header" : String) ≠ "table"),
      (by decide : ("narrow" : String) ≠ "table"),
      (by decide : ("narrow" : String) ≠ "header"),
      (by decide : ("wide" : String) ≠ "table"),
      (by decide : ("wide" : String) ≠ "header"),
      (by decide : ("wide" : String) ≠ "narrow"),
      (by decide : ("default" : String) ≠ "table"),
      (by decide : ("default" : String) ≠ "header"),
      (by decide : ("default" : String) ≠ "narrow"),
      (by decide : ("default" : String) ≠ "wide"),
      (by decide : ("80mm" : String) ≠ "58mm"),
      (by decide : ("58mm" : String) ≠ "80mm"),
      (by decide : ("A4" : String) ≠ "80mm"),
      (by decide : ("A4" : String) ≠ "58mm"),
      (by decide : ("small" : String) ≠ "normal")]

/-- With no `width`/`height` attribute and no `width:Npx`/`height:Npx`
match in the style (whatever else the style may contain), an over-wide
source auto-scales to `(max_width, int(max_width * orig_h / orig_w))`; the
final clamp is a no-op because the new width already equals the maximum. -/
theorem imgTarget_autoscale (paper_size : String)
    (styleAttr : Option (List Char)) (orig_w orig_h : ℤ)
    (hws : styleAttr.bind (fun st => parsePxStrict "width".data st) = none)
    (hhs : styleAttr.bind (fun st => parsePxStrict "height".data st) = none)
    (h : maxPx paper_size < orig_w) :
    imgTarget paper_size none none styleAttr orig_w orig_h
      = (maxPx paper_size, maxPx paper_size * orig_h / orig_w) := by
  unfold imgTarget truthyZ
  rw [hws, hhs]
  simp [h]

/-- C9 counterexample: an `<hr>` with inline style `border-style:solid`
yields the default `-`, not `#`: the `solid`/`thick` test only inspects the
class list, never the style string, contradicting the claim's "inspecting
both the inline style and the class list" mapping. -/
theorem C9_counterexample :
    hrChar (some "border-style:solid".data) [] ≠ '#' := by decide

/-- C9 amended: `double` is honored from style or class (`=`), `dotted` and
`dashed` from style or class (`-`), but `solid`/`thick` only as class
tokens (`#`); `border-style:solid` in the inline style falls through to the
default `-`, as does the absence of any style/class. -/
theorem C9_amended_fill_chars :
    hrChar none ["double".data] = '=' ∧
    hrChar (some "border-style:double".data) [] = '=' ∧
    hrChar (some "border-style:dashed".data) [] = '-' ∧
    hrChar (some "border-style:dotted".data) [] = '-' ∧
    hrChar none ["dashed".data] = '-' ∧
    hrChar none ["dotted".data] = '-' ∧
    hrChar none ["thick".data] = '#' ∧
    hrChar none ["solid".data] = '#' ∧
    hrChar (some "border-style:solid".data) [] = '-' ∧
    hrChar none [] = '-' := by decide

/-!  ## C6: the overflow scale-and-correct pass hits the width exactly -/

theorem sum_map_add_one (l : List ℕ) (f : ℕ → ℕ) :
    (l.map fun w => f w + 1).sum = (l.map f).sum + l.length := by
  induction l with
  | nil => simp
  | cons w ws ih =>
    simp [ih]
    omega

theorem sum_map_mul_right_nat (l : List ℕ) (f : ℕ → ℕ) (b : ℕ) :
    (l.map fun w => f w * b).sum = (l.map f).sum * b := by
  induction l with
  | nil => simp
  | cons w ws ih => simp [ih, add_mul]

theorem sum_map_mul_const (l : List ℕ) (b : ℕ) :
    (l.map fun w => w * b).sum = l.sum * b := by
  induction l with
  | nil => simp
  | cons w ws ih => simp [ih, add_mul]

theorem le_div_add_one_mul (a S : ℕ) (hS : 0 < S) : a ≤ (a / S + 1) * S := by
  have h1 := Nat.div_add_mod a S
  have h2 := Nat.mod_lt a hS
  have h3 : (a / S + 1) * S = S * (a / S) + S := by ring
  rw [h3]
  linarith

/-- The floored scaled widths sum to at most the target. -/
theorem sum_q_le (T : ℕ) (ws : List ℕ) (hS : 0 < ws.sum) :
    (ws.map fun w => w * T / ws.sum).sum ≤ T := by
  have key : ((ws.map fun w => w * T / ws.sum).sum) * ws.sum ≤ T * ws.sum := by
    calc (ws.map fun w => w * T / ws.sum).sum * ws.sum
        = (ws.map fun w => w * T / ws.sum * ws.sum).sum :=
          (sum_map_mul_right_nat ws _ ws.sum).symm
      _ ≤ (ws.map fun w => w * T).sum :=
          List.sum_le_sum fun w _ => Nat.div_mul_le_self _ _
      _ = ws.sum * T := sum_map_mul_const ws T
      _ = T * ws.sum := Nat.mul_comm _ _
  exact Nat.le_of_mul_le_mul_right key hS

/-- Each floor loses less than one unit, so the scaled widths reach the
target up to the number of columns. -/
theorem T_le_sum_q_add (T : ℕ) (ws : List ℕ) (hS : 0 < ws.sum) :
    T ≤ (ws.map fun w => w * T / ws.sum).sum + ws.length := by
  have key : T * ws.sum
      ≤ ((ws.map fun w => w * T / ws.sum).sum + ws.length) * ws.sum := by
    calc T * ws.sum = ws.sum * T := Nat.mul_comm _ _
      _ = (ws.map fun w => w * T).sum := (sum_map_mul_const ws T).symm
      _ ≤ (ws.map fun w => (w * T / ws.sum + 1) * ws.sum).sum :=
          List.sum_le_sum fun w _ => le_div_add_one_mul _ _ hS
      _ = ((ws.map fun w => w * T / ws.sum + 1).sum) * ws.sum :=
          sum_map_mul_right_nat ws _ ws.sum
      _ = ((ws.map fun w => w * T / ws.sum).sum + ws.length) * ws.sum := by
          rw [sum_map_add_one]
  exact Nat.le_of_mul_le_mul_right key hS

/-- The `max(1, ...)`-scaled widths land within `±length` of the target. -/
theorem scaleW_sum_bounds (T : ℕ) (ws : List ℕ) (hS : 0 < ws.sum) :
    (ws.map (scaleW T ws.sum)).sum ≤ T + ws.length ∧
    T ≤ (ws.map (scaleW T ws.sum)).sum + ws.length := by
  constructor
  · calc (ws.map (scaleW T ws.sum)).sum
        ≤ (ws.map fun w => w * T / ws.sum + 1).sum := by
          refine List.sum_le_sum fun w _ => ?_
          unfold scaleW
          exact max_le (Nat.succ_le_succ (Nat.zero_le _)) (Nat.le_succ _)
      _ = (ws.map fun w => w * T / ws.sum).sum + ws.length :=
          sum_map_add_one ws _
      _ ≤ T + ws.length := by
          have := sum_q_le T ws hS
          omega
  · calc T ≤ (ws.map fun w => w * T / ws.sum).sum + ws.length :=
          T_le_sum_q_add T ws hS
      _ ≤ (ws.map (scaleW T ws.sum)).sum + ws.length := by
          have : (ws.map fun w => w * T / ws.sum).sum
              ≤ (ws.map (scaleW T ws.sum)).sum := by
            refine List.sum_le_sum fun w _ => ?_
            unfold scaleW
            exact le_max_right _ _
          omega

/-- The correction loop adds exactly `d` to the total when `|d|` fits in
the list length and every entry is at least `1` (so `-1` never
underflows). -/
theorem correctDiff_sum (ws : List ℕ) (d : ℤ) (hd : d.natAbs ≤ ws.length)
    (hpos : ∀ w ∈ ws, 1 ≤ w) :
    ((correctDiff d ws).sum : ℤ) = (ws.sum : ℤ) + d := by
  induction ws generalizing d with
  | nil =>
    simp at hd
    unfold correctDiff
    simp
    omega
  | cons w ws ih =>
    have hw : 1 ≤ w := hpos w (List.mem_cons_self _ _)
    have hrest : ∀ x ∈ ws, 1 ≤ x := fun x hx =>
      hpos x (List.mem_cons_of_mem _ hx)
    simp only [List.length_cons] at hd
    unfold correctDiff
    split_ifs with h1 h2
    · have := ih (d - 1) (by omega) hrest
      simp only [List.sum_cons]
      push_cast at *
      omega
    · have := ih (d + 1) (by omega) hrest
      simp only [List.sum_cons]
      push_cast at *
      omega
    · simp
      omega

theorem scaleCorrect_sum (T : ℕ) (ws : List ℕ) (h : T < ws.sum) :
    (scaleCorrect T ws).sum = T := by
  have hS : 0 < ws.sum := lt_of_le_of_lt (Nat.zero_le T) h
  unfold scaleCorrect
  rw [if_pos h]
  show (correctDiff ((T : ℤ) - ((ws.map (scaleW T ws.sum)).sum : ℤ))
    (ws.map (scaleW T ws.sum))).sum = T
  have hb := scaleW_sum_bounds T ws hS
  have h1 : ∀ w ∈ ws.map (scaleW T ws.sum), 1 ≤ w := by
    intro w hw
    obtain ⟨x, _, hx⟩ := List.mem_map.1 hw
    rw [← hx]
    unfold scaleW
    exact le_max_left _ _
  have hlen : (ws.map (scaleW T ws.sum)).length = ws.length :=
    List.length_map _ _
  have hd : ((T : ℤ) - ((ws.map (scaleW T ws.sum)).sum : ℤ)).natAbs
      ≤ (ws.map (scaleW T ws.sum)).length := by omega
  have hcs := correctDiff_sum (ws.map (scaleW T ws.sum)) _ hd h1
  omega

/-- C6: whenever the resolved per-column widths (after the percent/fixed
pass and the flexible distribution) sum to more than the table width, the
scale-by-`table_width/sum` pass followed by the one-character corrections
on the earliest columns makes the widths sum to the table width exactly. -/
theorem C6_scaled_widths_sum_exact (styles : List StyleInfo)
    (table_width : ℕ)
    (h : table_width <
      (distributeFlex table_width styles (initWidths table_width styles)).sum) :
    (resolveColWidths table_width styles).sum = table_width :=
  scaleCorrect_sum _ _ h

/-- Two fixed-width columns (`width:400px` → 50 chars, `width:80px` → 10
chars) overflowing a 48-character table. -/
def c6styles : List StyleInfo :=
  [⟨none, some 50, .left, 4, false⟩, ⟨none, some 10, .left, 2, false⟩]

/-- C6 witness: the overflowing two-column example lands on exactly 48. -/
theorem C6_witness :
    48 < (distributeFlex 48 c6styles (initWidths 48 c6styles)).sum ∧
    (resolveColWidths 48 c6styles).sum = 48 :=
  ⟨by decide, C6_scaled_widths_sum_exact c6styles 48 (by decide)⟩

/-!  ## C10: flexible columns when declared widths fill the table -/

/-- When the declared widths already sum to exactly the table width, both
the flexible distribution (no positive remainder) and the overflow scaling
(no excess) are no-ops. -/
theorem resolveColWidths_of_exact (T : ℕ) (styles : List StyleInfo)
    (h : (initWidths T styles).sum = T) :
    resolveColWidths T styles = initWidths T styles := by
  unfold resolveColWidths
  have h1 : distributeFlex T styles (initWidths T styles)
      = initWidths T styles := by
    unfold distributeFlex
    rw [h]
    simp
  rw [h1]
  simp [scaleCorrect, h]

/-- Unpack membership in `flexible_columns`. -/
theorem mem_flexibleIdx (styles : List StyleInfo) (i : ℕ)
    (hi : i ∈ flexibleIdx styles) :
    ∃ st, styles.get? i = some st ∧ fixTruthy st.width_fixed = false ∧
      pctTruthy st.width_percent = false := by
  unfold flexibleIdx at hi
  rw [List.mem_filter] at hi
  obtain ⟨_, hp⟩ := hi
  cases hst : styles.get? i with
  | none =>
    rw [hst] at hp
    simp at hp
  | some st =>
    rw [hst] at hp
    simp at hp
    exact ⟨st, rfl, hp.1, hp.2⟩

/-- A flexible column's first-pass width is the placeholder `0`. -/
theorem initWidths_get_flex (T : ℕ) (styles : List StyleInfo) (i : ℕ)
    (st : StyleInfo) (hst : styles.get? i = some st)
    (hf : fixTruthy st.width_fixed = false)
    (hp : pctTruthy st.width_percent = false) :
    (initWidths T styles).get? i = some 0 := by
  unfold initWidths
  rw [List.get?_map, hst]
  simp [hf, hp]

/-- Indexing into the formatted-columns zip. -/
theorem formatCols_get (ts : List (List Char)) (ws : List ℕ)
    (sts : List StyleInfo) (i : ℕ) (t : List Char) (w : ℕ) (st : StyleInfo)
    (h1 : ts.get? i = some t) (h2 : ws.get? i = some w)
    (h3 : sts.get? i = some st) :
    (formatCols ts ws sts).get? i = some (formatCell t w st) := by
  induction ts generalizing ws sts i with
  | nil => simp at h1
  | cons a as ih =>
    cases ws with
    | nil => simp at h2
    | cons b bs =>
      cases sts with
      | nil => simp at h3
      | cons c cs =>
        cases i with
        | zero =>
          simp at h1 h2 h3
          subst h1
          subst h2
          subst h3
          rfl
        | succ j =>
          simp only [List.get?_cons_succ] at h1 h2 h3
          unfold formatCols
          simpa using ih bs cs j h1 h2 h3

/-- A width-0 column formats to the empty string under every alignment. -/
theorem formatCell_zero (t : List Char) (st : StyleInfo) :
    formatCell t 0 st = [] := by
  unfold formatCell
  cases st.align <;> simp [rjust, ljust, pycenter]

/-- C10 amended: when the widths resolved from percentage and fixed
declarations sum to EXACTLY the table width, every flexible column keeps
the placeholder width `0` and its formatted cell is the empty string, so
it is omitted from the rendered line.  (When they sum to MORE, the scaling
pass bumps each flexible column to `max(1, 0) = 1` instead — see the
counterexample.) -/
theorem C10_flexible_zero_when_exact (cells : List Cell) (table_width : ℕ)
    (h : (initWidths table_width (cells.map mkStyle)).sum = table_width)
    (i : ℕ) (hi : i ∈ flexibleIdx (cells.map mkStyle)) :
    (resolveColWidths table_width (cells.map mkStyle)).get? i = some 0 ∧
    (formatCols (cells.map Cell.text)
        (resolveColWidths table_width (cells.map mkStyle))
        (cells.map mkStyle)).get? i = some [] := by
  obtain ⟨st, hst, hf, hp⟩ := mem_flexibleIdx _ _ hi
  have hres := resolveColWidths_of_exact table_width (cells.map mkStyle) h
  have hw : (resolveColWidths table_width (cells.map mkStyle)).get? i
      = some 0 := by
    rw [hres]
    exact initWidths_get_flex _ _ _ _ hst hf hp
  refine ⟨hw, ?_⟩
  have hlt : i < cells.length := by
    obtain ⟨hl, _⟩ := List.get?_eq_some.1 hst
    simpa using hl
  obtain ⟨c, hc⟩ : ∃ c, cells.get? i = some c := by
    cases hcc : cells.get? i with
    | none =>
      rw [List.get?_eq_none] at hcc
      omega
    | some c => exact ⟨c, rfl⟩
  have ht : (cells.map Cell.text).get? i = some c.text := by
    rw [List.get?_map, hc]
    rfl
  have hs2 : (cells.map mkStyle).get? i = some (mkStyle c) := by
    rw [List.get?_map, hc]
    rfl
  rw [formatCols_get _ _ _ i c.text 0 (mkStyle c) ht hw hs2,
    formatCell_zero]

/-- A two-column row whose first cell declares `width:120%` (57 of 48
characters) and whose second cell is flexible. -/
def c10cells : List Cell :=
  [⟨"Item".data, some "width:120%".data⟩, ⟨"AB".data, none⟩]

/-- C10 counterexample: with declared widths summing to MORE than the
table width (57 > 48), the flexible column does NOT get width 0: the
scaling pass bumps it to `max(1, int(0 * 48/57)) = 1` (final widths are
`[47, 1]`), so its first character appears in the line. -/
theorem C10_counterexample :
    1 ∈ flexibleIdx (c10cells.map mkStyle) ∧
    (resolveColWidths 48 (c10cells.map mkStyle)).get? 1 ≠ some 0 := by
  decide

/-- The exact-fit variant: `width:100%` (48 of 48) plus a flexible cell. -/
def c10eqcells : List Cell :=
  [⟨"A".data, some "width:100%".data⟩, ⟨"AB".data, none⟩]

/-- C10 witness: in the exact-fit case the flexible column really is
dropped. -/
theorem C10_witness :
    (resolveColWidths 48 (c10eqcells.map mkStyle)).get? 1 = some 0 ∧
    (formatCols (c10eqcells.map Cell.text)
        (resolveColWidths 48 (c10eqcells.map mkStyle))
        (c10eqcells.map mkStyle)).get? 1 = some [] :=
  C10_flexible_zero_when_exact c10eqcells 48 (by decide) 1 (by decide)


/-!  ## C4: paragraph word-wrap -/

theorem splitWsAux_ne_nil (s : List Char) (cur w : List Char)
    (hw : w ∈ splitWsAux s cur) : w ≠ [] := by
  induction s generalizing cur with
  | nil =>
    unfold splitWsAux at hw
    split_ifs at hw with h
    · simp at hw
    · simp at hw
      subst hw
      intro hc
      rw [List.reverse_eq_nil_iff] at hc
      subst hc
      simp at h
  | cons c t ih =>
    unfold splitWsAux at hw
    split_ifs at hw with h1 h2
    · exact ih [] hw
    · rcases List.mem_cons.1 hw with h | h
      · subst h
        intro hc
        rw [List.reverse_eq_nil_iff] at hc
        subst hc
        simp at h2
      · exact ih [] h
    · exact ih (c :: cur) hw

theorem wrapWords_shape (width : ℕ) (ws : List (List Char))
    (cur l : List Char) (hl : l ∈ wrapWords width ws cur) :
    l.length ≤ width ∨ l = cur ∨ ∃ w ∈ ws, l = w ∨ l = w.drop width := by
  induction ws generalizing cur with
  | nil =>
    unfold wrapWords at hl
    split_ifs at hl with h
    · simp at hl
    · simp at hl
      right
      left
      exact hl
  | cons w ws ih =>
    cases cur with
    | nil =>
      simp only [wrapWords, List.isEmpty_nil, List.isEmpty_cons,
        Bool.not_false, Bool.not_true, Bool.false_eq_true, Bool.true_eq_false,
        if_true, if_false, ite_true, ite_false] at hl
      by_cases h1 : w.length ≤ width
      · rw [if_pos h1] at hl
        rcases ih _ hl with h | h | ⟨v, hv, h⟩
        · left; exact h
        · subst h
          left
          exact h1
        · right; right; exact ⟨v, List.mem_cons_of_mem _ hv, h⟩
      · rw [if_neg h1] at hl
        rcases List.mem_cons.1 hl with h | h
        · subst h
          left
          simp
        · rcases ih _ h with h2 | h2 | ⟨v, hv, h2⟩
          · left; exact h2
          · by_cases h3 : width < w.length
            · rw [if_pos h3] at h2
              subst h2
              right; right
              exact ⟨w, List.mem_cons_self _ _, Or.inr rfl⟩
            · rw [if_neg h3] at h2
              subst h2
              left
              simp
          · right; right; exact ⟨v, List.mem_cons_of_mem _ hv, h2⟩
    | cons a t =>
      simp only [wrapWords, List.isEmpty_nil, List.isEmpty_cons,
        Bool.not_false, Bool.not_true, Bool.false_eq_true, Bool.true_eq_false,
        if_true, if_false, ite_true, ite_false] at hl
      by_cases h1 : ((a :: t) ++ ' ' :: w).length ≤ width
      · rw [if_pos h1] at hl
        rcases ih _ hl with h | h | ⟨v, hv, h⟩
        · left; exact h
        · subst h
          left
          exact h1
        · right; right; exact ⟨v, List.mem_cons_of_mem _ hv, h⟩
      · rw [if_neg h1] at hl
        rcases List.mem_cons.1 hl with h | h
        · right; left; exact h
        · rcases ih _ h with h2 | h2 | ⟨v, hv, h2⟩
          · left; exact h2
          · right; right
            exact ⟨w, List.mem_cons_self _ _, Or.inl h2⟩
          · right; right; exact ⟨v, List.mem_cons_of_mem _ hv, h2⟩


theorem joinSp_cons_ne (a : List Char) (r : List (List Char)) (hr : r ≠ []) :
    joinSp (a :: r) = a ++ ' ' :: joinSp r := by
  cases r with
  | nil => exact absurd rfl hr
  | cons b t => rfl

theorem joinSp_cons_cons (a b : List Char) (r : List (List Char)) :
    joinSp ((a ++ ' ' :: b) :: r) = joinSp (a :: b :: r) := by
  cases r with
  | nil => rfl
  | cons x xs =>
    show (a ++ ' ' :: b) ++ ' ' :: joinSep ' ' (x :: xs)
      = a ++ ' ' :: (b ++ ' ' :: joinSep ' ' (x :: xs))
    simp

theorem wrapWords_ne_nil (width : ℕ) (ws : List (List Char))
    (cur : List Char) (hc : cur ≠ []) : wrapWords width ws cur ≠ [] := by
  induction ws generalizing cur with
  | nil =>
    unfold wrapWords
    rw [if_neg (by simpa using hc)]
    simp
  | cons w ws ih =>
    cases cur with
    | nil => exact absurd rfl hc
    | cons a t =>
      simp only [wrapWords, List.isEmpty_cons, Bool.not_false,
        Bool.false_eq_true, if_false, ite_false, if_true, ite_true]
      by_cases h1 : (a :: t ++ ' ' :: w).length ≤ width
      · rw [if_pos h1]
        exact ih _ (by simp)
      · rw [if_neg h1]
        simp

theorem wrapWords_join (width : ℕ) (ws : List (List Char))
    (cur : List Char) (hcur : cur ≠ []) (hws : ∀ w ∈ ws, w ≠ []) :
    ∃ vs, SplitSeq width ws vs ∧
      joinSp (wrapWords width ws cur) = joinSp (cur :: vs) := by
  induction ws generalizing cur with
  | nil =>
    refine ⟨[], .nil, ?_⟩
    unfold wrapWords
    rw [if_neg (by simpa using hcur)]
  | cons w ws ih =>
    have hw : w ≠ [] := hws w (List.mem_cons_self _ _)
    have hws2 : ∀ v ∈ ws, v ≠ [] := fun v hv =>
      hws v (List.mem_cons_of_mem _ hv)
    cases cur with
    | nil => exact absurd rfl hcur
    | cons a t =>
      simp only [wrapWords, List.isEmpty_cons, Bool.not_false,
        Bool.false_eq_true, if_false, ite_false, if_true, ite_true]
      by_cases h1 : (a :: t ++ ' ' :: w).length ≤ width
      · rw [if_pos h1]
        obtain ⟨vs, hsp, hj⟩ := ih (a :: t ++ ' ' :: w) (by simp) hws2
        refine ⟨w :: vs, .keep w hsp, ?_⟩
        rw [hj, joinSp_cons_cons]
      · rw [if_neg h1]
        obtain ⟨vs, hsp, hj⟩ := ih w hw hws2
        refine ⟨w :: vs, .keep w hsp, ?_⟩
        rw [joinSp_cons_ne _ _ (wrapWords_ne_nil width ws w hw), hj,
          joinSp_cons_ne _ (w :: vs) (by simp)]

theorem wrapWords_top_join (width : ℕ) (ws : List (List Char))
    (hws : ∀ w ∈ ws, w ≠ []) :
    ∃ vs, SplitSeq width ws vs ∧
      joinSp (wrapWords width ws []) = joinSp vs := by
  cases ws with
  | nil => exact ⟨[], .nil, rfl⟩
  | cons w ws =>
    have hw : w ≠ [] := hws w (List.mem_cons_self _ _)
    have hws2 : ∀ v ∈ ws, v ≠ [] := fun v hv =>
      hws v (List.mem_cons_of_mem _ hv)
    simp only [wrapWords, List.isEmpty_nil, Bool.not_true,
      Bool.false_eq_true, if_false, ite_false, if_true, ite_true]
    by_cases h1 : w.length ≤ width
    · rw [if_pos h1]
      obtain ⟨vs, hsp, hj⟩ := wrapWords_join width ws w hw hws2
      exact ⟨w :: vs, .keep w hsp, hj⟩
    · rw [if_neg h1]
      rw [if_pos (by omega : width < w.length)]
      have hdrop : w.drop width ≠ [] := by
        intro hd
        have := congrArg List.length hd
        simp at this
        omega
      obtain ⟨vs, hsp, hj⟩ := wrapWords_join width ws (w.drop width) hdrop hws2
      refine ⟨w.take width :: w.drop width :: vs, .split w (by omega) hsp, ?_⟩
      rw [joinSp_cons_ne _ _ (wrapWords_ne_nil width ws _ hdrop), hj,
        joinSp_cons_ne _ (w.drop width :: vs) (by simp)]


/-- Every word produced by `str.split()` is non-empty. -/
theorem splitWs_ne_nil (s : List Char) : ∀ w ∈ splitWs s, w ≠ [] :=
  fun w hw => splitWsAux_ne_nil s [] w hw

/-- C4 amended: every wrapped paragraph line fits in
`effectiveWidth(paper, font, default)` EXCEPT lines that are an over-long
input word emitted whole (a word that does not fit a non-empty line becomes
the next line in one piece) or the un-re-split remainder of a hard-split
word; and joining the lines back with single spaces reproduces the original
word sequence up to hard-splitting some over-long words once at the width
boundary. -/
theorem C4_wrap_amended (paper_size font_size : String) (text : List Char) :
    (∀ l ∈ paragraphLines paper_size font_size text,
        l.length ≤ defaultWidthNat paper_size font_size ∨
          ∃ w ∈ splitWs text,
            l = w ∨ l = w.drop (defaultWidthNat paper_size font_size)) ∧
    (defaultWidthNat paper_size font_size < text.length →
      ∃ vs, SplitSeq (defaultWidthNat paper_size font_size) (splitWs text) vs ∧
        joinSp (paragraphLines paper_size font_size text) = joinSp vs) := by
  constructor
  · intro l hl
    simp only [paragraphLines] at hl
    split_ifs at hl with h
    · rcases wrapWords_shape _ _ _ _ hl with h2 | h2 | h2
      · left
        exact h2
      · subst h2
        left
        simp
      · right
        exact h2
    · simp at hl
      subst hl
      left
      omega
  · intro h
    simp only [paragraphLines]
    rw [if_pos h]
    exact wrapWords_top_join _ _ (splitWs_ne_nil text)

/-- A 58mm/normal paragraph: a short word, then a 33-character word.  The
33-character word arrives on a non-empty line, so it is flushed whole. -/
def c4text : List Char := 'a' :: ' ' :: List.replicate 33 'b'

/-- C4 counterexample: the wrap emits a 33-character line on a width-32
paragraph (the over-long word is never split because the current line was
non-empty when it arrived). -/
theorem C4_counterexample :
    ¬ ∀ l ∈ paragraphLines "58mm" "normal" c4text,
        l.length ≤ defaultWidthNat "58mm" "normal" := by
  intro hall
  have hpl : paragraphLines "58mm" "normal" c4text
      = wrapWords 32 (splitWs c4text) [] := by
    simp only [paragraphLines]
    rw [defaultWidth_58_normal]
    rw [if_pos (by decide)]
  have hmem : List.replicate 33 'b' ∈ paragraphLines "58mm" "normal" c4text := by
    rw [hpl]
    decide
  have h2 := hall _ hmem
  rw [defaultWidth_58_normal] at h2
  simp at h2

/-- C4 witness: the amended claim instantiated on the counterexample text
(paragraph width 32 < 35 characters). -/
theorem C4_witness :
    ∃ vs, SplitSeq (defaultWidthNat "58mm" "normal") (splitWs c4text) vs ∧
      joinSp (paragraphLines "58mm" "normal" c4text) = joinSp vs :=
  (C4_wrap_amended "58mm" "normal" c4text).2
    (by rw [defaultWidth_58_normal]; decide)


/-!  ## C7: fault isolation of the tree walk -/

/-- The 80mm/normal configuration used by the render scenarios. -/
def cfg80 : Config := ⟨"80mm", "normal", "normal", false⟩

/-- A sink whose `barcode` capability raises and whose other calls
succeed. -/
def failBarcode : Op → Bool := fun o =>
  match o with
  | .barcode _ _ _ _ => true
  | _ => false

/-- `<barcode>12345</barcode><b>hi</b>`: a barcode element followed by a
sibling. -/
def c7doc : List Node :=
  [.elem "barcode" {} [.text "12345".data], .elem "b" {} [.text "hi".data]]

/-- C7 counterexample: the `p.barcode(...)` sink call has NO surrounding
`try/except`, so when the sink's barcode capability raises, the exception
propagates out of the whole traversal (the run ends in `error`) and the
`<b>hi</b>` sibling is never rendered — only the initial line-spacing
command was emitted. -/
theorem C7_counterexample :
    processHtml failBarcode cfg80 c7doc = .error [.raw [27, 51, 50]] := by
  rfl

/-- A malformed base64 `<img>` (decode raises, handled by the
`try: ... except: return`) is skipped without emitting anything. -/
theorem C7_img_skip (a : Attrs) (h1 : containsSub "base64".data a.src = true)
    (h2 : a.imgData = none) (h3 : a.style = none) (acc : List Op) :
    processElement (fun _ => false) cfg80 (.elem "img" a []) acc
      = .ok acc := by
  have hl : lowerName "img" = "img" := rfl
  simp only [processElement, hl, styleCentered, h3, imgRun, h1, h2,
    (by decide : isHeading "img" = false),
    (by decide : ("img" : String) ≠ "p"),
    (by decide : ("img" : String) ≠ "center"),
    (by decide : ("img" : String) ≠ "b"),
    (by decide : ("img" : String) ≠ "i"),
    (by decide : ("img" : String) ≠ "u"),
    Bool.false_eq_true, if_false, ite_false, if_true, ite_true, skip]

/-- C7 amended: the decode/open step of a base64 `<img>` IS fault-isolated
— any malformed payload is skipped and the following sibling still renders
in full — but sink failures in the barcode (and QR / table-row) calls are
not caught anywhere and abort the traversal, as the counterexample
shows. -/
theorem C7_amended_isolation (a : Attrs)
    (h1 : containsSub "base64".data a.src = true)
    (h2 : a.imgData = none) (h3 : a.style = none) :
    processHtml (fun _ => false) cfg80
        [.elem "img" a [], .elem "b" {} [.text "hi".data]]
      = .ok [.raw [27, 51, 50], .set { bold := some true },
             .text ('h' :: 'i' :: ['\n']), .set { bold := some false }] := by
  have hstep : andThen (setLineSpacing (fun _ => false) "normal")
      (andThen skip (processChildren (fun _ => false) cfg80
        [.elem "img" a [], .elem "b" {} [.text "hi".data]])) []
      = processChildren (fun _ => false) cfg80
          [.elem "img" a [], .elem "b" {} [.text "hi".data]]
          [.raw [27, 51, 50]] := rfl
  show andThen (setLineSpacing (fun _ => false) cfg80.line_spacing)
      (andThen (if cfg80.test_width then widthTestRun (fun _ => false) cfg80
        else skip) (processChildren (fun _ => false) cfg80 _)) [] = _
  rw [show cfg80.line_spacing = "normal" from rfl,
    show (if cfg80.test_width then widthTestRun (fun _ => false) cfg80
      else skip) = skip from rfl, hstep]
  show andThen (processElement (fun _ => false) cfg80 (.elem "img" a []))
    (processChildren (fun _ => false) cfg80 [.elem "b" {} [.text "hi".data]])
    [.raw [27, 51, 50]] = _
  unfold andThen
  rw [C7_img_skip a h1 h2 h3]
  rfl

/-- A concrete malformed base64 image source. -/
def badImgAttrs : Attrs := { src := "data:image/png;base64,XXXX".data }

/-- C7 witness: the amended isolation theorem at a concrete malformed
payload. -/
theorem C7_witness :
    processHtml (fun _ => false) cfg80
        [.elem "img" badImgAttrs [], .elem "b" {} [.text "hi".data]]
      = .ok [.raw [27, 51, 50], .set { bold := some true },
             .text ('h' :: 'i' :: ['\n']), .set { bold := some false }] :=
  C7_amended_isolation badImgAttrs (by decide) rfl rfl


/-!  ## C8: base64 image auto-scaling, settled at the emission level -/

/-- A 600×400 base64 image whose only style is `text-align:center` — no
pixel dimensions anywhere. -/
def c8centerAttrs : Attrs :=
  { src := "data:image/png;base64,AAAA".data,
    style := some "text-align:center".data,
    imgData := some (600, 400) }

/-- C8 counterexample: an over-wide base64 `<img>` with no width/height
attribute and no pixel values in its style is NOT always emitted resized:
when the style contains the literal `text-align:center`, the dispatcher's
centering branch (which fires for ANY tag before the `img` branch is
reached) consumes the element, its flattened text is empty, and the run
emits no bitmap at all — only the initial line-spacing command. -/
theorem C8_counterexample :
    processHtml (fun _ => false) cfg80 [.elem "img" c8centerAttrs []]
      = .ok [.raw [27, 51, 50]] ∧
    Op.image 576 384 ∉ [Op.raw [27, 51, 50]] :=
  ⟨rfl, by decide⟩

/-- The `<img>` handler emits the auto-scaled bitmap for any attribute
record with a base64 source, a decoded image, no width/height attribute,
no `width:Npx`/`height:Npx` style match, and a style that does not trigger
the centering dispatcher branch. -/
theorem C8_img_emit (paper_size : String) (a : Attrs) (ow oh : ℤ)
    (hsrc : containsSub "base64".data a.src = true)
    (himg : a.imgData = some (ow, oh))
    (hwa : a.widthAttr = none) (hha : a.heightAttr = none)
    (hws : a.style.bind (fun st => parsePxStrict "width".data st) = none)
    (hhs : a.style.bind (fun st => parsePxStrict "height".data st) = none)
    (hcen : styleCentered a = false)
    (how : maxPx paper_size < ow) (acc : List Op) :
    processElement (fun _ => false) ⟨paper_size, "normal", "normal", false⟩
        (.elem "img" a []) acc
      = .ok (acc ++ [.image (maxPx paper_size) (maxPx paper_size * oh / ow),
                     .text ['\n']]) := by
  have hl : lowerName "img" = "img" := rfl
  have htar : imgTarget paper_size a.widthAttr a.heightAttr a.style ow oh
      = (maxPx paper_size, maxPx paper_size * oh / ow) := by
    rw [hwa, hha]
    exact imgTarget_autoscale paper_size a.style ow oh hws hhs how
  simp only [processElement, hl, hcen, imgRun, hsrc, himg, htar,
    (by decide : isHeading "img" = false),
    (by decide : ("img" : String) ≠ "p"),
    (by decide : ("img" : String) ≠ "center"),
    (by decide : ("img" : String) ≠ "b"),
    (by decide : ("img" : String) ≠ "i"),
    (by decide : ("img" : String) ≠ "u"),
    Bool.false_eq_true, if_false, ite_false, if_true, ite_true,
    tryCatch, emitOps, emitOp, skip, List.append_assoc]
  rfl

/-- C8 amended: for every base64 `<img>` with no explicit width or height
— no attributes and no `width:Npx`/`height:Npx` style values — whose style
also does not contain the literal `text-align:center` (otherwise the
centering dispatcher branch consumes the element and no bitmap is emitted,
see the counterexample) and whose source width exceeds the paper's pixel
maximum, the run emits exactly one bitmap, resized to
`(max_width, int(max_width * orig_h / orig_w))`. -/
theorem C8_amended_autoscale_emission (paper_size : String) (a : Attrs)
    (ow oh : ℤ)
    (hsrc : containsSub "base64".data a.src = true)
    (himg : a.imgData = some (ow, oh))
    (hwa : a.widthAttr = none) (hha : a.heightAttr = none)
    (hws : a.style.bind (fun st => parsePxStrict "width".data st) = none)
    (hhs : a.style.bind (fun st => parsePxStrict "height".data st) = none)
    (hcen : styleCentered a = false)
    (how : maxPx paper_size < ow) :
    processHtml (fun _ => false) ⟨paper_size, "normal", "normal", false⟩
        [.elem "img" a []]
      = .ok [.raw [27, 51, 50],
             .image (maxPx paper_size) (maxPx paper_size * oh / ow),
             .text ['\n']] := by
  have hstep : andThen (setLineSpacing (fun _ => false) "normal")
      (andThen skip (processChildren (fun _ => false)
        ⟨paper_size, "normal", "normal", false⟩ [.elem "img" a []])) []
      = processChildren (fun _ => false)
          ⟨paper_size, "normal", "normal", false⟩ [.elem "img" a []]
          [.raw [27, 51, 50]] := rfl
  show andThen (setLineSpacing (fun _ => false)
      (Config.mk paper_size "normal" "normal" false).line_spacing)
      (andThen (if (Config.mk paper_size "normal" "normal" false).test_width
          then widthTestRun (fun _ => false)
            ⟨paper_size, "normal", "normal", false⟩
        else skip)
        (processChildren (fun _ => false)
          ⟨paper_size, "normal", "normal", false⟩ _)) [] = _
  rw [show (Config.mk paper_size "normal" "normal" false).line_spacing
      = "normal" from rfl,
    show (if (Config.mk paper_size "normal" "normal" false).test_width
        then widthTestRun (fun _ => false)
          ⟨paper_size, "normal", "normal", false⟩
      else skip) = skip from rfl, hstep]
  show andThen (processElement (fun _ => false)
      ⟨paper_size, "normal", "normal", false⟩ (.elem "img" a []))
    (processChildren (fun _ => false)
      ⟨paper_size, "normal", "normal", false⟩ [])
    [.raw [27, 51, 50]] = _
  unfold andThen
  rw [C8_img_emit paper_size a ow oh hsrc himg hwa hha hws hhs hcen how]
  rfl

/-- A 600×400 base64 image carrying a style attribute with no pixel values
and no centering literal. -/
def c8styleAttrs : Attrs :=
  { src := "data:image/png;base64,AAAA".data,
    style := some "color:red".data,
    imgData := some (600, 400) }

/-- C8 witness: the documented 600×400-on-80mm scenario — here with a
non-pixel style attribute present — is emitted at 576×384. -/
theorem C8_witness_style :
    processHtml (fun _ => false) ⟨"80mm", "normal", "normal", false⟩
        [.elem "img" c8styleAttrs []]
      = .ok [.raw [27, 51, 50], .image 576 384, .text ['\n']] :=
  C8_amended_autoscale_emission "80mm" c8styleAttrs 600 400
    (by decide) rfl rfl rfl (by decide) (by decide) (by decide) (by decide)

end PrintPos
